import Mathlib

/-!
Verification of the upload-intake orchestration layer of the zipdrop
desktop client (`src/App.tsx`).

The definitions below are a shallow embedding of the TypeScript source.
Pure helpers (`getExtension`, `getFileName`, `validateFiles`, the display
name construction) become Lean functions on `String` / `List`.  The
stateful drop pipeline (`processFiles`, the drag listeners, the history
mutations) becomes a step function on an explicit model state, with the
single `await` suspension point of `processFiles` split into a synchronous
start phase and two settle continuations (success / failure), which is
exactly how the single-threaded JS event loop interleaves it.  Ghost
fields (`inFlight`, `pendingPaths`, `invocations`, `remoteDeletes`) record
the externally observable remote calls without influencing the embedded
control flow.

JavaScript strings are embedded as `String`, with `split`, `toLowerCase`
and `replace(/\.[^.]+$/, "")` re-implemented by structural recursion on
the character list so that every definition evaluates inside the kernel.
`Date.now()` timestamps are `Nat` milliseconds.
-/

namespace ZipDrop

/-! ### Constants (App.tsx lines 10-33) -/

def MAX_FILES : Nat := 50
def DEBOUNCE_MS : Nat := 300
def MAX_RECENT_UPLOADS : Nat := 10

/-- The fixed extension allow-list (`ALLOWED_EXTENSIONS`, a JS `Set`). -/
def ALLOWED_EXTENSIONS : List String := [
  "jpg", "jpeg", "png", "gif", "bmp", "tiff", "tif", "webp", "heic", "heif", "svg", "ico", "raw", "cr2", "nef", "arw",
  "pdf", "doc", "docx", "xls", "xlsx", "ppt", "pptx", "txt", "rtf", "csv", "md", "markdown", "pages", "numbers", "key",
  "zip", "tar", "gz", "7z", "rar", "bz2", "xz", "tgz",
  "mov", "mp4", "avi", "mkv", "webm", "m4v", "wmv", "flv", "3gp",
  "mp3", "wav", "aac", "flac", "m4a", "ogg", "wma", "aiff",
  "json", "xml", "html", "css", "js", "ts", "jsx", "tsx", "py", "rs", "go", "swift", "java", "c", "cpp", "h", "rb", "php", "sh", "bash", "zsh", "yaml", "yml", "toml", "ini", "sql", "graphql",
  "dmg", "pkg", "app", "ipa",
  "ttf", "otf", "woff", "woff2", "eot",
  "log", "env", "gitignore", "dockerfile"]

/-! ### String utilities

`JS string.split(sep)` for a one-character separator, re-implemented
structurally on the character list (same semantics as `String.splitOn`
for these inputs, but kernel-evaluable). -/

def splitOnList (sep : Char) : List Char → List (List Char)
  | [] => [[]]
  | c :: cs =>
    let rest := splitOnList sep cs
    if c = sep then [] :: rest
    else
      match rest with
      | [] => [[c]]
      | r :: rs => (c :: r) :: rs

def splitString (sep : Char) (s : String) : List String :=
  (splitOnList sep s.toList).map String.mk

/-- JS `toLowerCase` (ASCII range, which covers every allow-list entry). -/
def lowerString (s : String) : String :=
  String.mk (s.toList.map Char.toLower)

/-- `getExtension` (App.tsx lines 91-94): split on `.`; if more than one
part, the last part lower-cased, else the empty string. -/
def getExtension (path : String) : String :=
  let parts := splitString '.' path
  if parts.length > 1 then lowerString (parts.getLastD "") else ""

/-- `getFileName` (App.tsx lines 96-98): `path.split("/").pop() || path`
(the `||` falls back to the whole path when the last component is the
falsy empty string). -/
def getFileName (path : String) : String :=
  let last := (splitString '/' path).getLastD ""
  if last = "" then path else last

/-! ### Validator (App.tsx lines 100-115) -/

structure ValidationResult where
  valid : Bool
  error : Option String
deriving Repr, DecidableEq

/-- The per-path test of the `for` loop body in `validateFiles`:
`ext && !ALLOWED_EXTENSIONS.has(ext)`. -/
def badExtension (path : String) : Bool :=
  (getExtension path != "") && !(ALLOWED_EXTENSIONS.contains (getExtension path))

/-- `validateFiles` (App.tsx lines 100-115).  The short-circuiting `for`
loop over `paths` is `List.find?` of the first offending path. -/
def validateFiles (paths : List String) : ValidationResult :=
  if paths.length = 0 then
    { valid := false, error := some "No files provided" }
  else if paths.length > MAX_FILES then
    { valid := false, error := some ("Too many files. Maximum is " ++ toString MAX_FILES ++ ".") }
  else
    match paths.find? badExtension with
    | some path =>
      { valid := false,
        error := some ("Unsupported file type: ." ++ getExtension path ++ " (" ++ getFileName path ++ ")") }
    | none => { valid := true, error := none }

/-! ### Data model (App.tsx lines 38-78) -/

inductive AppState
  | idle
  | dragOver
  | processing
  | success
  | error
deriving Repr, DecidableEq

structure UploadItem where
  id : String
  name : String
  size : String
  url : String
  localPath : Option String
  r2Key : Option String
  isDemo : Bool
  timestamp : Nat
deriving Repr, DecidableEq

structure DropResult where
  url : String
  local_path : Option String
  r2_key : Option String
  original_size : Nat
  processed_size : Nat
  file_type : String
  is_demo : Bool
deriving Repr, DecidableEq

/-- JS `x || undefined` applied to an optional string: `""` is falsy and
collapses to `undefined` (App.tsx lines 216-217). -/
def orUndefined : Option String → Option String
  | none => none
  | some s => if s = "" then none else some s

/-- JS truthiness of an optional string (`item.r2Key` in `deleteUpload`). -/
def truthyString : Option String → Bool
  | none => false
  | some s => s != ""

/-! ### Model state

React state hooks (`state`, `statusText`, `uploads`, `currentFileName`)
and refs (`lastDropTime`, `isProcessing`) of the `App` component, plus
ghost fields observing the remote boundary:
`inFlight` counts outstanding `process_and_upload` invocations,
`pendingPaths` is the `paths` argument captured by the in-flight call,
`invocations` logs every started `process_and_upload` call `(time, paths)`,
`remoteDeletes` logs every fire-and-forget `delete_from_r2` key.
Timers (the 2 s / 3 s auto-reset and the 10 s auto-hide) and the
`localStorage` write-back effect are outside the claims modelled here. -/

structure Model where
  state : AppState
  statusText : String
  uploads : List UploadItem
  currentFileName : String
  lastDropTime : Nat
  isProcessing : Bool
  inFlight : Nat
  pendingPaths : List String
  invocations : List (Nat × List String)
  remoteDeletes : List String
deriving Repr, DecidableEq

/-- `JSON.parse` of the persisted slot, abstracted: `none` models a parse
exception.  Loading (App.tsx lines 139-146): a missing or malformed value
leaves the initial empty list in place. -/
def loadUploads (parseJson : String → Option (List UploadItem)) :
    Option String → List UploadItem
  | none => []
  | some s =>
    match parseJson s with
    | some l => l
    | none => []

/-- Component state right after mount: hooks at their `useState` initial
values, refs at 0 / false, history as loaded from the persisted slot. -/
def initModel (uploads0 : List UploadItem) : Model :=
  { state := .idle
    statusText := ""
    uploads := uploads0
    currentFileName := ""
    lastDropTime := 0
    isProcessing := false
    inFlight := 0
    pendingPaths := []
    invocations := []
    remoteDeletes := [] }

/-! ### The drop pipeline (`processFiles`, App.tsx lines 160-258)

`processFiles` is `async` with a single suspension point, the
`await invoke("process_and_upload")`.  Everything before that `await`
runs synchronously on the event loop and is `processFilesStart`; the
`try` continuation after the `await` is `processFilesSuccess`; the
`catch` + `finally` path is `processFilesFailure`. -/

/-- Synchronous prefix of `processFiles`: debounce, single-flight guard,
empty-batch check, validation, then guard set + transition to
`processing` + start of the remote invocation (ghost-logged).
The source writes `lastDropTime.current = now` once, right after the
debounce check and before the remaining checks; here that write is
inlined into each of the later branches, which leaves every branch's
final state identical to the source's. -/
def processFilesStart (m : Model) (now : Nat) (paths : List String) : Model :=
  if now - m.lastDropTime < DEBOUNCE_MS then m
  else if m.isProcessing then { m with lastDropTime := now }
  else if paths.length = 0 then { m with lastDropTime := now }
  else if !(validateFiles paths).valid then
    { m with
      lastDropTime := now
      state := .error
      statusText := ((validateFiles paths).error).getD "" }
  else
    { m with
      lastDropTime := now
      isProcessing := true
      currentFileName := (paths.map getFileName).headD ""
      state := .processing
      statusText := "Processing " ++ toString paths.length ++ " file" ++
        (if paths.length > 1 then "s" else "") ++ "..."
      inFlight := m.inFlight + 1
      pendingPaths := paths
      invocations := m.invocations ++ [(now, paths)] }

/-- Display-name construction (App.tsx lines 201-208): fixed `archive.zip`
for a multi-file batch; otherwise the base name of the single file with
the remote-reported type substituted.
`stripLastExt` models `fileName.replace(/\.[^.]+$/, "")`: the regex
matches exactly when the name splits on `.` into more than one part with
a non-empty last part, and removing the match keeps everything before
the final dot. -/
def stripLastExt (fileName : String) : String :=
  let parts := splitString '.' fileName
  if parts.length > 1 && (parts.getLastD "") != "" then
    String.intercalate "." parts.dropLast
  else fileName

def displayNameOf (paths : List String) (fileType : String) : String :=
  if paths.length > 1 then "archive.zip"
  else stripLastExt (getFileName (paths.headD "")) ++ "." ++ fileType

/-- `[newUpload, ...prev].slice(0, MAX_RECENT_UPLOADS)` — the history
prepend with truncation (App.tsx lines 225-229). -/
def prependCap (prev : List UploadItem) (u : UploadItem) : List UploadItem :=
  (u :: prev).take MAX_RECENT_UPLOADS

/-- The `newUpload` record built on success (App.tsx lines 211-220).
`fmtSize` abstracts `formatBytes`, whose floating-point internals no
claim depends on; `now` is the `Date.now()` at success time. -/
def newUploadOf (fmtSize : Nat → String) (paths : List String)
    (result : DropResult) (now : Nat) : UploadItem :=
  { id := toString now
    name := displayNameOf paths result.file_type
    size := fmtSize result.processed_size
    url := result.url
    localPath := orUndefined result.local_path
    r2Key := orUndefined result.r2_key
    isDemo := result.is_demo
    timestamp := now }

/-- `try` continuation after the `await` resolves, plus `finally`:
build the record, prepend to history, show success, release the guard. -/
def processFilesSuccess (fmtSize : Nat → String) (m : Model)
    (paths : List String) (result : DropResult) (now : Nat) : Model :=
  { m with
    uploads := prependCap m.uploads (newUploadOf fmtSize paths result now)
    state := .success
    statusText := if result.is_demo then "Saved to Downloads!" else "Copied to clipboard!"
    isProcessing := false
    inFlight := m.inFlight - 1 }

/-- `catch` branch plus `finally`: show the error message, release the
guard.  (`currentFileName` is only cleared later by the 3 s timer.) -/
def processFilesFailure (m : Model) (msg : String) : Model :=
  { m with
    state := .error
    statusText := msg
    isProcessing := false
    inFlight := m.inFlight - 1 }

/-- `deleteUpload` (App.tsx lines 321-329): filter the record out of the
history; when shift was held and the item is cloud-backed (truthy
`r2Key`, not demo), issue one un-awaited `delete_from_r2`.  Returns the
new history and the list of remote-delete keys issued (ghost). -/
def deleteUpload (shiftKey : Bool) (item : UploadItem)
    (uploads : List UploadItem) : List UploadItem × List String :=
  (uploads.filter (fun u => u.id != item.id),
   if shiftKey && truthyString item.r2Key && !item.isDemo then
     [(item.r2Key).getD ""]
   else [])

/-! ### Event-loop semantics

Single-threaded cooperative scheduling: each event below is handled
atomically; `settleOk` / `settleErr` are the resumption of the one
suspended `processFiles` continuation (they can only be delivered while
an invocation is outstanding, hence the `inFlight` guard making them a
no-op otherwise). -/

inductive Event
  | drop (now : Nat) (paths : List String)
  | settleOk (result : DropResult) (now : Nat)
  | settleErr (msg : String)
  | dragEnter
  | dragExit
  | delete (shiftKey : Bool) (item : UploadItem)
  | clearAll
deriving Repr

def step (fmtSize : Nat → String) (m : Model) : Event → Model
  | .drop now paths =>
    -- the drop listener (lines 272-277) forwards only non-empty path lists
    if paths.length > 0 then processFilesStart m now paths else m
  | .settleOk result now =>
    if m.inFlight > 0 then processFilesSuccess fmtSize m m.pendingPaths result now else m
  | .settleErr msg =>
    if m.inFlight > 0 then processFilesFailure m msg else m
  | .dragEnter =>
    -- dragOverListener (lines 279-284)
    if !m.isProcessing then { m with state := .dragOver } else m
  | .dragExit =>
    -- dragLeaveListener (lines 286-291)
    if !m.isProcessing then { m with state := .idle } else m
  | .delete shiftKey item =>
    let r := deleteUpload shiftKey item m.uploads
    { m with uploads := r.1, remoteDeletes := m.remoteDeletes ++ r.2 }
  | .clearAll =>
    -- the Clear button (line 438)
    { m with uploads := [] }

def runTrace (fmtSize : Nat → String) (m : Model) (es : List Event) : Model :=
  es.foldl (step fmtSize) m

/-- Whether handling `drop now paths` in state `m` starts a remote
`process_and_upload` invocation (reaches the controller and is accepted). -/
def dropForwards (fmtSize : Nat → String) (m : Model) (now : Nat)
    (paths : List String) : Bool :=
  m.invocations.length < (step fmtSize m (.drop now paths)).invocations.length

/-- Whether an event is the settling (resolution or rejection) of the
in-flight remote invocation. -/
def isSettle : Event → Bool
  | .settleOk _ _ => true
  | .settleErr _ => true
  | _ => false

/-! ### Settings/Credential panel (`SettingsPanel`, App.tsx lines 501-656)

State hooks of the panel.  The `useEffect` with dependency list
`[accessKey, secretKey, bucketName, accountId]` (lines 539-542) reruns
exactly when one of those four values changed in a render, and then
resets `validated` and clears `error`; `editField` below folds that
effect into the field update.  `handleValidate` / `handleSave` each have
one `await`; their synchronous prefixes return whether a remote call was
issued, and the settle continuations are separate functions. -/

structure SettingsModel where
  accessKey : String
  secretKey : String
  bucketName : String
  accountId : String
  publicUrlBase : String
  saving : Bool
  validating : Bool
  error : String
  validated : Bool
deriving Repr, DecidableEq

inductive CredField
  | accessKey
  | secretKey
  | bucketName
  | accountId
  | publicUrlBase
deriving Repr, DecidableEq

def writeField (s : SettingsModel) : CredField → String → SettingsModel
  | .accessKey, v => { s with accessKey := v }
  | .secretKey, v => { s with secretKey := v }
  | .bucketName, v => { s with bucketName := v }
  | .accountId, v => { s with accountId := v }
  | .publicUrlBase, v => { s with publicUrlBase := v }

def readField (s : SettingsModel) : CredField → String
  | .accessKey => s.accessKey
  | .secretKey => s.secretKey
  | .bucketName => s.bucketName
  | .accountId => s.accountId
  | .publicUrlBase => s.publicUrlBase

/-- An `onChange` field update followed by the reset effect: the effect
fires iff one of its four dependencies changed (note `publicUrlBase` is
not among them). -/
def editField (s : SettingsModel) (f : CredField) (v : String) : SettingsModel :=
  let s2 := writeField s f v
  if s2.accessKey ≠ s.accessKey ∨ s2.secretKey ≠ s.secretKey ∨
     s2.bucketName ≠ s.bucketName ∨ s2.accountId ≠ s.accountId then
    { s2 with validated := false, error := "" }
  else s2

/-- Synchronous prefix of `handleValidate` (lines 546-566); the returned
flag says whether the remote `validate_r2_config` call was issued.
JS `!field` for a string is the emptiness test. -/
def handleValidateStart (s : SettingsModel) : SettingsModel × Bool :=
  if s.accessKey = "" ∨ s.secretKey = "" ∨ s.bucketName = "" ∨ s.accountId = "" then
    ({ s with error := "Account ID, Bucket Name, Access Key, and Secret Key are required" }, false)
  else
    ({ s with validating := true, error := "" }, true)

/-- `try` continuation of `handleValidate` plus its `finally`. -/
def handleValidateOk (s : SettingsModel) : SettingsModel :=
  { s with validated := true, validating := false }

/-- `catch` branch of `handleValidate` plus its `finally`. -/
def handleValidateErr (s : SettingsModel) (msg : String) : SettingsModel :=
  { s with error := msg, validated := false, validating := false }

/-- Synchronous prefix of `handleSave` (lines 568-592); the returned flag
says whether the remote `set_r2_config` call was issued. -/
def handleSaveStart (s : SettingsModel) : SettingsModel × Bool :=
  if s.accessKey = "" ∨ s.secretKey = "" ∨ s.bucketName = "" ∨ s.accountId = "" ∨
     s.publicUrlBase = "" then
    ({ s with error := "All fields are required" }, false)
  else if !s.validated then
    ({ s with error := "Please test your credentials first" }, false)
  else
    ({ s with saving := true, error := "" }, true)

inductive SettingsEvent
  | edit (f : CredField) (v : String)
  | validateStart
  | validateOk
  | validateErr (msg : String)
  | saveStart
deriving Repr

def settingsStep (s : SettingsModel) : SettingsEvent → SettingsModel
  | .edit f v => editField s f v
  | .validateStart => (handleValidateStart s).1
  | .validateOk => handleValidateOk s
  | .validateErr msg => handleValidateErr s msg
  | .saveStart => (handleSaveStart s).1

/-- Panel state on mount (`useState` initial values, lines 512-520). -/
def initSettings : SettingsModel :=
  { accessKey := ""
    secretKey := ""
    bucketName := ""
    accountId := ""
    publicUrlBase := ""
    saving := false
    validating := false
    error := ""
    validated := false }

def settingsRun (es : List SettingsEvent) : SettingsModel :=
  es.foldl settingsStep initSettings

/-! ### Concrete data used to instantiate theorems -/

def fmt0 : Nat → String := fun n => toString n ++ " B"

def webpResult : DropResult :=
  { url := "https://cdn.example/photo.webp"
    local_path := none
    r2_key := some "k-photo"
    original_size := 2048
    processed_size := 1024
    file_type := "webp"
    is_demo := false }

def zipResult : DropResult :=
  { url := "https://cdn.example/archive.zip"
    local_path := none
    r2_key := some "k-archive"
    original_size := 4096
    processed_size := 2000
    file_type := "zip"
    is_demo := false }

/-- The model state while the first drop's invocation is still in flight. -/
def procModel : Model :=
  runTrace fmt0 (initModel []) [.drop 1000 ["photo.jpg"]]

/-- The model state right after a successful upload settled. -/
def successModel : Model :=
  runTrace fmt0 (initModel []) [.drop 1000 ["photo.jpg"], .settleOk webpResult 1500]

/-- A concrete cloud-backed history record. -/
def sampleCloudItem : UploadItem :=
  { id := "1700000000000"
    name := "photo.webp"
    size := "1 KB"
    url := "https://cdn.example/photo.webp"
    localPath := none
    r2Key := some "k-photo"
    isDemo := false
    timestamp := 1700000000000 }

/-- A panel state with all five fields filled but not validated. -/
def filledSettings : SettingsModel :=
  { initSettings with
    accessKey := "AK"
    secretKey := "SK"
    bucketName := "BUCKET"
    accountId := "ACC"
    publicUrlBase := "https://u.example" }

/-- A panel state with all five fields filled and validated. -/
def validatedSettings : SettingsModel :=
  { filledSettings with validated := true }

def mkItem (i : Nat) : UploadItem :=
  { id := toString i
    name := "file" ++ toString i
    size := ""
    url := ""
    localPath := none
    r2Key := none
    isDemo := true
    timestamp := i }

/-! ### Basic step lemmas -/

lemma processFilesStart_of_debounced (m : Model) (now : Nat) (paths : List String)
    (h : now - m.lastDropTime < DEBOUNCE_MS) :
    processFilesStart m now paths = m := by
  simp [processFilesStart, h]

lemma step_drop_of_debounced (fmtSize : Nat → String) (m : Model) (now : Nat)
    (paths : List String) (h : now - m.lastDropTime < DEBOUNCE_MS) :
    step fmtSize m (.drop now paths) = m := by
  simp only [step]
  split
  · exact processFilesStart_of_debounced m now paths h
  · rfl

lemma processFilesStart_of_processing (m : Model) (now : Nat) (paths : List String)
    (hd : ¬ now - m.lastDropTime < DEBOUNCE_MS) (hp : m.isProcessing = true) :
    processFilesStart m now paths = { m with lastDropTime := now } := by
  simp [processFilesStart, hd, hp]

lemma processFilesStart_uploads (m : Model) (now : Nat) (paths : List String) :
    (processFilesStart m now paths).uploads = m.uploads := by
  unfold processFilesStart
  split
  · rfl
  split
  · rfl
  split
  · rfl
  split
  · rfl
  · rfl

lemma processFilesStart_lastDropTime_mono (m : Model) (now : Nat) (paths : List String) :
    m.lastDropTime ≤ (processFilesStart m now paths).lastDropTime := by
  unfold processFilesStart
  split
  · exact Nat.le_refl _
  case isFalse hd =>
    have hle : m.lastDropTime ≤ now := by
      by_contra hlt
      have hz : now - m.lastDropTime = 0 := by omega
      exact hd (by simp [hz, DEBOUNCE_MS])
    split
    · exact hle
    split
    · exact hle
    split
    · exact hle
    · exact hle

lemma lastDropTime_mono_step (fmtSize : Nat → String) (m : Model) (e : Event) :
    m.lastDropTime ≤ (step fmtSize m e).lastDropTime := by
  cases e with
  | drop now paths =>
    simp only [step]
    split
    · exact processFilesStart_lastDropTime_mono m now paths
    · exact Nat.le_refl _
  | settleOk result now =>
    simp only [step]
    split <;> rfl
  | settleErr msg =>
    simp only [step]
    split <;> rfl
  | dragEnter =>
    simp only [step]
    split <;> rfl
  | dragExit =>
    simp only [step]
    split <;> rfl
  | delete shiftKey item =>
    simp only [step]
    exact Nat.le_refl _
  | clearAll =>
    simp only [step]
    exact Nat.le_refl _

lemma lastDropTime_mono_runTrace (fmtSize : Nat → String) :
    ∀ (es : List Event) (m : Model),
      m.lastDropTime ≤ (runTrace fmtSize m es).lastDropTime := by
  intro es
  induction es with
  | nil => intro m; exact Nat.le_refl _
  | cons e es ih =>
    intro m
    calc m.lastDropTime ≤ (step fmtSize m e).lastDropTime := lastDropTime_mono_step fmtSize m e
      _ ≤ (runTrace fmtSize (step fmtSize m e) es).lastDropTime := ih _

/-- A generic invariant-preservation principle for event traces. -/
lemma runTrace_inv (P : Model → Prop) (fmtSize : Nat → String)
    (hstep : ∀ m e, P m → P (step fmtSize m e)) :
    ∀ (es : List Event) (m : Model), P m → P (runTrace fmtSize m es) := by
  intro es
  induction es with
  | nil => intro m hm; exact hm
  | cons e es ih => intro m hm; exact ih _ (hstep m e hm)

/-- The single-flight bookkeeping invariant: the ghost count of
outstanding remote invocations tracks the guard flag exactly. -/
def guardOk (m : Model) : Prop :=
  m.inFlight = if m.isProcessing then 1 else 0

lemma guardOk_step (fmtSize : Nat → String) (m : Model) (e : Event)
    (h : guardOk m) : guardOk (step fmtSize m e) := by
  cases e with
  | drop now paths =>
    simp only [step]
    split
    case isTrue =>
      unfold processFilesStart
      split
      · exact h
      split
      · exact h
      split
      · exact h
      split
      · exact h
      case isFalse hd hp _ _ =>
        simp only [guardOk] at h ⊢
        simp only [Bool.not_eq_true] at hp
        simp [hp] at h
        simp [h]
    case isFalse => exact h
  | settleOk result now =>
    simp only [step]
    split
    case isTrue hf =>
      simp only [guardOk] at h ⊢
      simp only [processFilesSuccess, if_neg Bool.false_ne_true]
      cases hp : m.isProcessing with
      | false => simp [hp] at h; omega
      | true => simp [hp] at h; simp [h]
    case isFalse => exact h
  | settleErr msg =>
    simp only [step]
    split
    case isTrue hf =>
      simp only [guardOk] at h ⊢
      simp only [processFilesFailure, if_neg Bool.false_ne_true]
      cases hp : m.isProcessing with
      | false => simp [hp] at h; omega
      | true => simp [hp] at h; simp [h]
    case isFalse => exact h
  | dragEnter =>
    simp only [step]
    split <;> exact h
  | dragExit =>
    simp only [step]
    split <;> exact h
  | delete shiftKey item => exact h
  | clearAll => exact h

lemma guardOk_runTrace (fmtSize : Nat → String) (uploads0 : List UploadItem)
    (es : List Event) : guardOk (runTrace fmtSize (initModel uploads0) es) :=
  runTrace_inv guardOk fmtSize (guardOk_step fmtSize) es (initModel uploads0) rfl

lemma dropForwards_props (fmtSize : Nat → String) (m : Model) (now : Nat)
    (paths : List String) (h : dropForwards fmtSize m now paths = true) :
    DEBOUNCE_MS ≤ now - m.lastDropTime ∧
    (step fmtSize m (.drop now paths)).lastDropTime = now ∧
    (step fmtSize m (.drop now paths)).isProcessing = true ∧
    m.isProcessing = false := by
  simp only [dropForwards, decide_eq_true_eq] at h
  simp only [step] at h ⊢
  split at h
  case isFalse => exact absurd h (lt_irrefl _)
  case isTrue hp =>
    rw [if_pos hp]
    unfold processFilesStart at h ⊢
    split at h
    · exact absurd h (lt_irrefl _)
    case isFalse h1 =>
      split at h
      · exact absurd h (lt_irrefl _)
      case isFalse h2 =>
        split at h
        · exact absurd h (lt_irrefl _)
        case isFalse h3 =>
          split at h
          · exact absurd h (lt_irrefl _)
          case isFalse h4 =>
            refine ⟨Nat.le_of_not_lt h1, ?_⟩
            rw [if_neg h1, if_neg h2, if_neg h3, if_neg h4]
            exact ⟨rfl, rfl, Bool.not_eq_true _ ▸ h2⟩

lemma step_uploads_le (fmtSize : Nat → String) (m : Model) (e : Event)
    (h : m.uploads.length ≤ MAX_RECENT_UPLOADS) :
    (step fmtSize m e).uploads.length ≤ MAX_RECENT_UPLOADS := by
  cases e with
  | drop now paths =>
    simp only [step]
    split
    · rw [processFilesStart_uploads]; exact h
    · exact h
  | settleOk result now =>
    simp only [step]
    split
    · simp only [processFilesSuccess, prependCap]
      exact List.length_take_le MAX_RECENT_UPLOADS _
    · exact h
  | settleErr msg =>
    simp only [step]
    split
    · exact h
    · exact h
  | dragEnter =>
    simp only [step]
    split <;> exact h
  | dragExit =>
    simp only [step]
    split <;> exact h
  | delete shiftKey item =>
    simp only [step, deleteUpload]
    exact le_trans (List.length_filter_le _ _) h
  | clearAll =>
    simp [step]

lemma take_append_take {α : Type} (x y : List α) (n : Nat) :
    (x ++ y.take n).take n = (x ++ y).take n := by
  rw [List.take_append_eq_append_take, List.take_append_eq_append_take, List.take_take]
  congr 1
  congr 1
  exact Nat.min_eq_left (Nat.sub_le n x.length)

lemma prependCap_length_le (acc : List UploadItem) (u : UploadItem) :
    (prependCap acc u).length ≤ MAX_RECENT_UPLOADS :=
  List.length_take_le MAX_RECENT_UPLOADS _

lemma foldl_prependCap :
    ∀ (l acc : List UploadItem), acc.length ≤ MAX_RECENT_UPLOADS →
      l.foldl prependCap acc = (l.reverse ++ acc).take MAX_RECENT_UPLOADS := by
  intro l
  induction l with
  | nil =>
    intro acc h
    simp [List.take_of_length_le h]
  | cons a l ih =>
    intro acc h
    simp only [List.foldl_cons, List.reverse_cons]
    rw [ih (prependCap acc a) (prependCap_length_le acc a)]
    simp only [prependCap]
    rw [take_append_take]
    simp

lemma badExtension_eq_false_iff (q : String) :
    badExtension q = false ↔
      (getExtension q = "" ∨ getExtension q ∈ ALLOWED_EXTENSIONS) := by
  have hbridge : ALLOWED_EXTENSIONS.contains (getExtension q) = true ↔
      getExtension q ∈ ALLOWED_EXTENSIONS := by
    constructor
    · intro h; exact List.elem_iff.mp (by simpa [List.contains] using h)
    · intro h; simpa [List.contains] using List.elem_iff.mpr h
  unfold badExtension
  by_cases he : getExtension q = ""
  · simp [he]
  · by_cases hm : getExtension q ∈ ALLOWED_EXTENSIONS
    · simp [he, hm, hbridge.mpr hm]
    · have hc : ALLOWED_EXTENSIONS.contains (getExtension q) = false :=
        Bool.eq_false_iff.mpr fun hcc => hm (hbridge.mp hcc)
      simp [he, hm, hc]

lemma find?_first {α : Type} (p : α → Bool) :
    ∀ (pre : List α) (a : α) (post : List α),
      (∀ q ∈ pre, p q = false) → p a = true →
      (pre ++ a :: post).find? p = some a := by
  intro pre a post hpre ha
  induction pre with
  | nil => simpa using List.find?_cons_of_pos post ha
  | cons x xs ih =>
    have hx : p x = false := hpre x (by simp)
    simp only [List.cons_append]
    rw [List.find?_cons_of_neg _ (by simp [hx])]
    exact ih fun q hq => hpre q (by simp [hq])

lemma prependCap_head? (prev : List UploadItem) (u : UploadItem) :
    (prependCap prev u).head? = some u := by
  rw [prependCap, show MAX_RECENT_UPLOADS = 9 + 1 from rfl, List.take_succ_cons]
  rfl

/-! ### Claim theorems -/

/-- C2: `validateFiles` applies its rules in order: an empty batch fails
with the empty-batch error; a batch longer than 50 fails with the
too-many-files error regardless of content; otherwise the first path
whose derived extension (substring after the final dot, lower-cased;
paths whose derived extension is empty are exempt) is not in the fixed
allow-list fails with the unsupported-type error identifying that
extension and file, short-circuiting; if every extension is allow-listed
or absent, validation succeeds.  (Synchrony and freedom from side
effects are inherent: the embedding is a pure function.) -/
theorem c2_validateFiles_spec (paths : List String) :
    (paths = [] →
      validateFiles paths = { valid := false, error := some "No files provided" }) ∧
    (paths.length > 50 →
      validateFiles paths =
        { valid := false, error := some "Too many files. Maximum is 50." }) ∧
    (∀ pre p post, paths = pre ++ p :: post → paths.length ≤ 50 →
      getExtension p ≠ "" → getExtension p ∉ ALLOWED_EXTENSIONS →
      (∀ q ∈ pre, getExtension q = "" ∨ getExtension q ∈ ALLOWED_EXTENSIONS) →
      validateFiles paths =
        { valid := false
          error := some ("Unsupported file type: ." ++ getExtension p ++
            " (" ++ getFileName p ++ ")") }) ∧
    (paths ≠ [] → paths.length ≤ 50 →
      (∀ q ∈ paths, getExtension q = "" ∨ getExtension q ∈ ALLOWED_EXTENSIONS) →
      validateFiles paths = { valid := true, error := none }) := by
  refine ⟨?_, ?_, ?_, ?_⟩
  · intro h
    subst h
    rfl
  · intro h
    have h0 : ¬ paths.length = 0 := by omega
    have h1 : paths.length > MAX_FILES := by simpa [MAX_FILES] using h
    simp only [validateFiles, if_neg h0, if_pos h1]
    decide
  · intro pre p post hps hlen he hc hpre
    have hbad : badExtension p = true := by
      rcases hb : badExtension p with _ | _
      · rcases (badExtension_eq_false_iff p).mp hb with h | h
        · exact absurd h he
        · exact absurd h hc
      · rfl
    have hfind : paths.find? badExtension = some p := by
      rw [hps]
      exact find?_first badExtension pre p post
        (fun q hq => (badExtension_eq_false_iff q).mpr (hpre q hq)) hbad
    have h0 : ¬ paths.length = 0 := by
      subst hps
      simp
    have h2 : ¬ paths.length > MAX_FILES := by
      simp only [MAX_FILES]
      omega
    simp only [validateFiles, if_neg h0, if_neg h2, hfind]
  · intro hne hlen hall
    have hfind : paths.find? badExtension = none :=
      List.find?_eq_none.mpr fun x hx => by
        simp [(badExtension_eq_false_iff x).mpr (hall x hx)]
    have h0 : ¬ paths.length = 0 := by
      simpa [List.length_eq_zero] using hne
    have h2 : ¬ paths.length > MAX_FILES := by
      simp only [MAX_FILES]
      omega
    simp only [validateFiles, if_neg h0, if_neg h2, hfind]

/-- Witness for C2: the rules evaluated at concrete batches. -/
theorem c2_validateFiles_spec_witness :
    validateFiles ["a.txt", "x.exe", "b.pdf"] =
      { valid := false, error := some "Unsupported file type: .exe (x.exe)" } ∧
    validateFiles ["photo.JPG", "README"] = { valid := true, error := none } ∧
    validateFiles [] = { valid := false, error := some "No files provided" } := by
  refine ⟨?_, ?_, ?_⟩
  · have h := (c2_validateFiles_spec ["a.txt", "x.exe", "b.pdf"]).2.2.1
      ["a.txt"] "x.exe" ["b.pdf"] rfl (by decide) (by decide) (by decide) (by decide)
    exact h.trans (by decide)
  · exact (c2_validateFiles_spec ["photo.JPG", "README"]).2.2.2
      (by decide) (by decide) (by decide)
  · exact (c2_validateFiles_spec []).1 rfl

/-- C1: single-flight — in every reachable state at most one remote
process-and-upload invocation is outstanding, and a drop handled while
the session is processing changes no invocation bookkeeping, starts no
second invocation, and leaves state, history and the guard untouched
(the guard is checked synchronously before the suspension point, so the
check and the discard are atomic with respect to the event loop). -/
theorem c1_single_flight :
    (∀ (fmtSize : Nat → String) (uploads0 : List UploadItem) (es : List Event),
      (runTrace fmtSize (initModel uploads0) es).inFlight ≤ 1) ∧
    (∀ (fmtSize : Nat → String) (m : Model) (now : Nat) (paths : List String),
      m.isProcessing = true →
        (step fmtSize m (.drop now paths)).invocations = m.invocations ∧
        (step fmtSize m (.drop now paths)).inFlight = m.inFlight ∧
        (step fmtSize m (.drop now paths)).state = m.state ∧
        (step fmtSize m (.drop now paths)).uploads = m.uploads ∧
        (step fmtSize m (.drop now paths)).isProcessing = true) := by
  constructor
  · intro fmtSize u0 es
    have h := guardOk_runTrace fmtSize u0 es
    unfold guardOk at h
    split at h <;> omega
  · intro fmtSize m now paths hp
    simp only [step]
    split
    case isFalse => exact ⟨rfl, rfl, rfl, rfl, hp⟩
    case isTrue =>
      by_cases hd : now - m.lastDropTime < DEBOUNCE_MS
      · rw [processFilesStart_of_debounced m now paths hd]
        exact ⟨rfl, rfl, rfl, rfl, hp⟩
      · rw [processFilesStart_of_processing m now paths hd hp]
        exact ⟨rfl, rfl, rfl, rfl, hp⟩

/-- Witness for C1: a concrete trace, and a concrete mid-processing state
whose further drop is discarded without a second invocation. -/
theorem c1_single_flight_witness :
    (runTrace fmt0 (initModel []) [.drop 1000 ["photo.jpg"]]).inFlight ≤ 1 ∧
    procModel.isProcessing = true ∧
    (step fmt0 procModel (.drop 1400 ["b.png"])).invocations = procModel.invocations := by
  have hp : procModel.isProcessing = true := by decide
  exact ⟨c1_single_flight.1 fmt0 [] [.drop 1000 ["photo.jpg"]], hp,
    (c1_single_flight.2 fmt0 procModel 1400 ["b.png"] hp).1⟩

/-- C3 counterexample: the claim "of any two drop notifications arriving
less than 300 ms apart, only the first is forwarded to the controller"
fails.  Concretely: a drop at t=1000 is forwarded and its invocation
settles at t=1100; a drop at t=1200 is debounced (200 ms after the last
debounce-passing drop) and is NOT forwarded; a drop at t=1350 — only
150 ms after the t=1200 drop — IS forwarded, because the code measures
the window from the last drop that passed the debounce (t=1000), not
from the last notification. -/
theorem c3_debounce_counterexample :
    ((1350 : Nat) - 1200 < DEBOUNCE_MS) ∧
    dropForwards fmt0 (runTrace fmt0 (initModel [])
      [.drop 1000 ["a.txt"], .settleOk webpResult 1100]) 1200 ["b.txt"] = false ∧
    dropForwards fmt0 (runTrace fmt0 (initModel [])
      [.drop 1000 ["a.txt"], .settleOk webpResult 1100, .drop 1200 ["b.txt"]])
      1350 ["c.txt"] = true := by
  exact ⟨by decide, by decide, by decide⟩

/-- C3 amended: a drop arriving less than 300 ms after the last drop that
passed the debounce check is silently discarded with no state change at
all; and no two drops that are both forwarded to the controller (i.e.
start a remote invocation) can lie less than 300 ms apart — if a drop at
`t1` is forwarded, any drop at `t2` with `t2 - t1 < 300` ms, after any
interleaving of further events, is not forwarded. -/
theorem c3_debounce_amended :
    (∀ (fmtSize : Nat → String) (m : Model) (now : Nat) (paths : List String),
      now - m.lastDropTime < DEBOUNCE_MS →
        step fmtSize m (.drop now paths) = m) ∧
    (∀ (fmtSize : Nat → String) (m : Model) (t1 t2 : Nat)
        (ps1 ps2 : List String) (es : List Event),
      t1 ≤ t2 → t2 - t1 < DEBOUNCE_MS →
      dropForwards fmtSize m t1 ps1 = true →
      dropForwards fmtSize (runTrace fmtSize (step fmtSize m (.drop t1 ps1)) es)
        t2 ps2 = false) := by
  constructor
  · exact fun fmtSize m now paths h => step_drop_of_debounced fmtSize m now paths h
  · intro fmtSize m t1 t2 ps1 ps2 es hle hlt hfwd
    by_contra hfwd2
    rw [Bool.not_eq_false] at hfwd2
    have h1 : (step fmtSize m (.drop t1 ps1)).lastDropTime = t1 :=
      (dropForwards_props fmtSize m t1 ps1 hfwd).2.1
    have hmono := lastDropTime_mono_runTrace fmtSize es (step fmtSize m (.drop t1 ps1))
    rw [h1] at hmono
    have h2 := (dropForwards_props fmtSize
      (runTrace fmtSize (step fmtSize m (.drop t1 ps1)) es) t2 ps2 hfwd2).1
    have h3 : t2 - (runTrace fmtSize (step fmtSize m (.drop t1 ps1)) es).lastDropTime ≤
        t2 - t1 := Nat.sub_le_sub_left hmono t2
    omega

/-- Witness for C3's amended theorem: the debounce discard at a concrete
state, and the 300 ms separation of forwarded drops on a concrete trace. -/
theorem c3_debounce_amended_witness :
    ((1050 : Nat) - procModel.lastDropTime < DEBOUNCE_MS ∧
      step fmt0 procModel (.drop 1050 ["late.png"]) = procModel) ∧
    ((1000 : Nat) ≤ 1250 ∧ (1250 : Nat) - 1000 < DEBOUNCE_MS ∧
      dropForwards fmt0 (initModel []) 1000 ["photo.jpg"] = true ∧
      dropForwards fmt0 (runTrace fmt0 (step fmt0 (initModel [])
        (.drop 1000 ["photo.jpg"])) [.settleOk webpResult 1100]) 1250 ["b.png"] = false) := by
  refine ⟨⟨by decide, ?_⟩, by decide, by decide, by decide, ?_⟩
  · exact c3_debounce_amended.1 fmt0 procModel 1050 ["late.png"] (by decide)
  · exact c3_debounce_amended.2 fmt0 (initModel []) 1000 1250 ["photo.jpg"] ["b.png"]
      [.settleOk webpResult 1100] (by decide) (by decide) (by decide)

/-- C4: the history never exceeds 10 records (over any event trace from a
start state whose loaded history already respects the bound); a success
prepends the new record at the head; and folding the prepend-with-
truncation over N successive records from an empty history yields exactly
the most recent min(N,10) records, most-recent-first — for N > 10,
exactly the 10 most recent. -/
theorem c4_history_bound :
    (∀ (fmtSize : Nat → String) (uploads0 : List UploadItem) (es : List Event),
      uploads0.length ≤ MAX_RECENT_UPLOADS →
        (runTrace fmtSize (initModel uploads0) es).uploads.length ≤ MAX_RECENT_UPLOADS) ∧
    (∀ (fmtSize : Nat → String) (m : Model) (paths : List String)
        (result : DropResult) (now : Nat),
      (processFilesSuccess fmtSize m paths result now).uploads.head? =
        some (newUploadOf fmtSize paths result now)) ∧
    (∀ records : List UploadItem,
      records.foldl prependCap [] = records.reverse.take MAX_RECENT_UPLOADS) ∧
    (∀ records : List UploadItem, MAX_RECENT_UPLOADS < records.length →
      (records.foldl prependCap []).length = MAX_RECENT_UPLOADS) := by
  refine ⟨?_, ?_, ?_, ?_⟩
  · intro fmtSize u0 es h
    exact runTrace_inv (fun m => m.uploads.length ≤ MAX_RECENT_UPLOADS) fmtSize
      (fun m e hm => step_uploads_le fmtSize m e hm) es (initModel u0) h
  · intro fmtSize m paths result now
    exact prependCap_head? m.uploads (newUploadOf fmtSize paths result now)
  · intro records
    rw [foldl_prependCap records [] (by simp)]
    simp
  · intro records h
    rw [foldl_prependCap records [] (by simp)]
    simp only [List.append_nil, List.length_take, List.length_reverse]
    omega

/-- Witness for C4: the bound on a concrete trace, and exactly 10 records
most-recent-first after 12 concrete prepends. -/
theorem c4_history_bound_witness :
    (runTrace fmt0 (initModel [])
      [.drop 1000 ["photo.jpg"], .settleOk webpResult 1500]).uploads.length ≤
        MAX_RECENT_UPLOADS ∧
    (((List.range 12).map mkItem).foldl prependCap []).length = MAX_RECENT_UPLOADS ∧
    ((List.range 12).map mkItem).foldl prependCap [] =
      (((List.range 12).map mkItem).reverse).take MAX_RECENT_UPLOADS := by
  refine ⟨?_, ?_, ?_⟩
  · exact c4_history_bound.1 fmt0 []
      [.drop 1000 ["photo.jpg"], .settleOk webpResult 1500] (by decide)
  · exact c4_history_bound.2.2.2 ((List.range 12).map mkItem) (by decide)
  · exact c4_history_bound.2.2.1 ((List.range 12).map mkItem)

/-- C5: the in-flight guard flag is set synchronously exactly when a batch
is accepted (any forwarded drop leaves the guard set before the
suspension point), and it is cleared on both settle continuations —
success and failure — so after any trace ending in a settle event the
guard is false: the guard can never remain locked after the remote call
settles, even when it rejects. -/
theorem c5_guard_lifecycle :
    (∀ (fmtSize : Nat → String) (m : Model) (now : Nat) (paths : List String),
      dropForwards fmtSize m now paths = true →
        (step fmtSize m (.drop now paths)).isProcessing = true) ∧
    (∀ (fmtSize : Nat → String) (m : Model) (paths : List String)
        (result : DropResult) (now : Nat),
      (processFilesSuccess fmtSize m paths result now).isProcessing = false) ∧
    (∀ (m : Model) (msg : String), (processFilesFailure m msg).isProcessing = false) ∧
    (∀ (fmtSize : Nat → String) (uploads0 : List UploadItem) (es : List Event) (e : Event),
      isSettle e = true →
        (runTrace fmtSize (initModel uploads0) (es ++ [e])).isProcessing = false) := by
  refine ⟨?_, ?_, ?_, ?_⟩
  · intro fmtSize m now paths h
    exact (dropForwards_props fmtSize m now paths h).2.2.1
  · intro _ _ _ _ _
    rfl
  · intro _ _
    rfl
  · intro fmtSize u0 es e hse
    have hg := guardOk_runTrace fmtSize u0 es
    unfold runTrace at hg ⊢
    rw [List.foldl_append]
    cases e with
    | settleOk result now =>
      simp only [List.foldl_cons, List.foldl_nil, step]
      split
      · rfl
      case isFalse hf =>
        unfold guardOk at hg
        cases hp : (List.foldl (step fmtSize) (initModel u0) es).isProcessing
        · rfl
        · rw [hp] at hg
          simp at hg
          omega
    | settleErr msg =>
      simp only [List.foldl_cons, List.foldl_nil, step]
      split
      · rfl
      case isFalse hf =>
        unfold guardOk at hg
        cases hp : (List.foldl (step fmtSize) (initModel u0) es).isProcessing
        · rfl
        · rw [hp] at hg
          simp at hg
          omega
    | drop now paths => simp [isSettle] at hse
    | dragEnter => simp [isSettle] at hse
    | dragExit => simp [isSettle] at hse
    | delete shiftKey item => simp [isSettle] at hse
    | clearAll => simp [isSettle] at hse

/-- Witness for C5: a concrete forwarded drop sets the guard; concrete
traces ending in a success settle and in a failure settle leave it
cleared. -/
theorem c5_guard_lifecycle_witness :
    (dropForwards fmt0 (initModel []) 1000 ["photo.jpg"] = true ∧
      (step fmt0 (initModel []) (.drop 1000 ["photo.jpg"])).isProcessing = true) ∧
    (runTrace fmt0 (initModel [])
      ([.drop 1000 ["photo.jpg"]] ++ [.settleOk webpResult 1500])).isProcessing = false ∧
    (runTrace fmt0 (initModel [])
      ([.drop 1000 ["photo.jpg"]] ++ [.settleErr "network unreachable"])).isProcessing = false := by
  refine ⟨⟨by decide, ?_⟩, ?_, ?_⟩
  · exact c5_guard_lifecycle.1 fmt0 (initModel []) 1000 ["photo.jpg"] (by decide)
  · exact c5_guard_lifecycle.2.2.2 fmt0 [] [.drop 1000 ["photo.jpg"]]
      (.settleOk webpResult 1500) rfl
  · exact c5_guard_lifecycle.2.2.2 fmt0 [] [.drop 1000 ["photo.jpg"]]
      (.settleErr "network unreachable") rfl

/-- C6 counterexample: the claim that editing ANY credential field after
a successful validation resets the validated flag is false for
`publicUrlBase` (the reset effect depends only on the other four
fields).  Concretely: after filling all five fields and validating
successfully, editing `publicUrlBase` leaves `validated = true` and a
subsequent save is issued without re-validation.  A second concrete run
shows an edit made while the validation call is in flight is also
overridden: the success continuation still sets `validated = true`. -/
theorem c6_validation_gating_counterexample :
    ((settingsRun [.edit .accessKey "AK", .edit .secretKey "SK",
        .edit .bucketName "BUCKET", .edit .accountId "ACC",
        .edit .publicUrlBase "https://u.example", .validateStart, .validateOk,
        .edit .publicUrlBase "https://other.example"]).validated = true ∧
      (handleSaveStart (settingsRun [.edit .accessKey "AK", .edit .secretKey "SK",
        .edit .bucketName "BUCKET", .edit .accountId "ACC",
        .edit .publicUrlBase "https://u.example", .validateStart, .validateOk,
        .edit .publicUrlBase "https://other.example"])).2 = true) ∧
    (settingsRun [.edit .accessKey "AK", .edit .secretKey "SK",
        .edit .bucketName "BUCKET", .edit .accountId "ACC",
        .edit .publicUrlBase "https://u.example", .validateStart,
        .edit .accessKey "EDITED-IN-FLIGHT", .validateOk]).validated = true := by
  exact ⟨⟨by decide, by decide⟩, by decide⟩

/-- C6 amended: editing any of the four fields account id, bucket name,
access key or secret key (to a different value) resets the validated
flag and clears the error, but editing the public URL base leaves the
validated flag as it was; save fails with the missing-fields error when
any of the five fields is empty, and otherwise with the not-validated
error when no successful validation is in effect; and the only panel
event that sets the validated flag is a successful validation response. -/
theorem c6_validation_gating_amended :
    (∀ (s : SettingsModel) (f : CredField) (v : String),
      f ≠ CredField.publicUrlBase → readField s f ≠ v →
        (editField s f v).validated = false ∧ (editField s f v).error = "") ∧
    (∀ (s : SettingsModel) (v : String),
      (editField s .publicUrlBase v).validated = s.validated) ∧
    (∀ s : SettingsModel,
      (s.accessKey = "" ∨ s.secretKey = "" ∨ s.bucketName = "" ∨ s.accountId = "" ∨
        s.publicUrlBase = "") →
      handleSaveStart s = ({ s with error := "All fields are required" }, false)) ∧
    (∀ s : SettingsModel,
      s.accessKey ≠ "" → s.secretKey ≠ "" → s.bucketName ≠ "" → s.accountId ≠ "" →
      s.publicUrlBase ≠ "" → s.validated = false →
        handleSaveStart s =
          ({ s with error := "Please test your credentials first" }, false)) ∧
    (∀ (s : SettingsModel) (e : SettingsEvent),
      (settingsStep s e).validated = true →
        s.validated = true ∨ e = SettingsEvent.validateOk) := by
  refine ⟨?_, ?_, ?_, ?_, ?_⟩
  · intro s f v hf hv
    cases f with
    | publicUrlBase => exact absurd rfl hf
    | accessKey =>
      rw [editField]
      split
      · exact ⟨rfl, rfl⟩
      case isFalse hcond =>
        exact absurd (Or.inl fun h => hv h.symm) hcond
    | secretKey =>
      rw [editField]
      split
      · exact ⟨rfl, rfl⟩
      case isFalse hcond =>
        exact absurd (Or.inr (Or.inl fun h => hv h.symm)) hcond
    | bucketName =>
      rw [editField]
      split
      · exact ⟨rfl, rfl⟩
      case isFalse hcond =>
        exact absurd (Or.inr (Or.inr (Or.inl fun h => hv h.symm))) hcond
    | accountId =>
      rw [editField]
      split
      · exact ⟨rfl, rfl⟩
      case isFalse hcond =>
        exact absurd (Or.inr (Or.inr (Or.inr fun h => hv h.symm))) hcond
  · intro s v
    rw [editField, if_neg]
    · rfl
    · intro h
      rcases h with h | h | h | h <;> exact h rfl
  · intro s h
    rw [handleSaveStart, if_pos h]
  · intro s h1 h2 h3 h4 h5 hval
    rw [handleSaveStart, if_neg (by simp [h1, h2, h3, h4, h5]), if_pos (by simp [hval])]
  · intro s e
    cases e with
    | edit f v =>
      simp only [settingsStep, editField]
      split
      · intro h
        simp at h
      · intro h
        left
        cases f <;> exact h
    | validateStart =>
      simp only [settingsStep, handleValidateStart]
      split
      · intro h
        exact Or.inl h
      · intro h
        exact Or.inl h
    | validateOk =>
      intro _
      exact Or.inr rfl
    | validateErr msg =>
      intro h
      simp [settingsStep, handleValidateErr] at h
    | saveStart =>
      simp only [settingsStep, handleSaveStart]
      split
      · intro h
        exact Or.inl h
      split
      · intro h
        exact Or.inl h
      · intro h
        exact Or.inl h

/-- Witness for C6's amended theorem at concrete panel states. -/
theorem c6_validation_gating_amended_witness :
    (editField validatedSettings .accessKey "NEW-KEY").validated = false ∧
    (editField validatedSettings .publicUrlBase "https://other.example").validated = true ∧
    handleSaveStart initSettings =
      ({ initSettings with error := "All fields are required" }, false) ∧
    handleSaveStart filledSettings =
      ({ filledSettings with error := "Please test your credentials first" }, false) := by
  refine ⟨?_, ?_, ?_, ?_⟩
  · exact (c6_validation_gating_amended.1 validatedSettings .accessKey "NEW-KEY"
      (by decide) (by decide)).1
  · exact c6_validation_gating_amended.2.1 validatedSettings "https://other.example"
  · exact c6_validation_gating_amended.2.2.1 initSettings (Or.inl rfl)
  · exact c6_validation_gating_amended.2.2.2.1 filledSettings
      (by decide) (by decide) (by decide) (by decide) (by decide) rfl

/-- C7: the display name of the record a success adds to the history is
the fixed archive name for a multi-file batch, and for a single file the
original base name with its extension replaced by the remote-reported
type; end-to-end, dropping photo.jpg with remote type webp yields a
record named photo.webp, and dropping a.jpg + b.png yields archive.zip. -/
theorem c7_display_name :
    (∀ (fmtSize : Nat → String) (m : Model) (paths : List String)
        (result : DropResult) (now : Nat),
      ((processFilesSuccess fmtSize m paths result now).uploads.head?).map
          (fun u => u.name) =
        some (displayNameOf paths result.file_type)) ∧
    (∀ (paths : List String) (fileType : String), paths.length > 1 →
      displayNameOf paths fileType = "archive.zip") ∧
    (∀ p fileType : String,
      displayNameOf [p] fileType = stripLastExt (getFileName p) ++ "." ++ fileType) ∧
    ((runTrace fmt0 (initModel [])
        [.drop 1000 ["photo.jpg"], .settleOk webpResult 1500]).uploads.map
          (fun u => u.name) = ["photo.webp"]) ∧
    ((runTrace fmt0 (initModel [])
        [.drop 1000 ["a.jpg", "b.png"], .settleOk zipResult 1500]).uploads.map
          (fun u => u.name) = ["archive.zip"]) := by
  refine ⟨?_, ?_, ?_, by decide, by decide⟩
  · intro fmtSize m paths result now
    rw [show (processFilesSuccess fmtSize m paths result now).uploads =
      prependCap m.uploads (newUploadOf fmtSize paths result now) from rfl]
    rw [prependCap_head? m.uploads (newUploadOf fmtSize paths result now)]
    rfl
  · intro paths fileType h
    simp [displayNameOf, h]
  · intro p fileType
    simp [displayNameOf]

/-- Witness for C7's quantified multi-file conjunct at a concrete batch. -/
theorem c7_display_name_witness :
    displayNameOf ["a.jpg", "b.png"] "zip" = "archive.zip" :=
  c7_display_name.2.1 ["a.jpg", "b.png"] "zip" (by decide)

/-- C8: removing a record yields a history in which no record carries the
removed id; exactly one remote delete is issued precisely when the
deletion is explicitly requested (shift held) and the record is
cloud-backed (truthy storage key, not demo); and the updated history is a
function of the local arguments alone — in particular the model's
record of issued remote deletes (hence their un-awaited outcome) never
influences the history any step computes. -/
theorem c8_remove_fire_and_forget :
    (∀ (shiftKey : Bool) (item : UploadItem) (uploads : List UploadItem),
      (deleteUpload shiftKey item uploads).1 =
        uploads.filter (fun u => u.id != item.id)) ∧
    (∀ (shiftKey : Bool) (item : UploadItem) (uploads : List UploadItem),
      ∀ u ∈ (deleteUpload shiftKey item uploads).1, u.id ≠ item.id) ∧
    (∀ (shiftKey : Bool) (item : UploadItem) (uploads : List UploadItem),
      (deleteUpload shiftKey item uploads).2.length =
        if shiftKey && truthyString item.r2Key && !item.isDemo then 1 else 0) ∧
    (∀ (fmtSize : Nat → String) (m : Model) (ks : List String) (e : Event),
      (step fmtSize { m with remoteDeletes := ks } e).uploads =
        (step fmtSize m e).uploads) := by
  refine ⟨?_, ?_, ?_, ?_⟩
  · intro shiftKey item uploads
    rfl
  · intro shiftKey item uploads u hu
    have := List.of_mem_filter hu
    simpa using this
  · intro shiftKey item uploads
    by_cases h : (shiftKey && truthyString item.r2Key && !item.isDemo) = true
    · simp [deleteUpload, h]
    · simp [deleteUpload, h]
  · intro fmtSize m ks e
    cases e with
    | drop now paths =>
      simp only [step]
      by_cases hp : paths.length > 0
      · rw [if_pos hp, if_pos hp, processFilesStart_uploads, processFilesStart_uploads]
      · rw [if_neg hp, if_neg hp]
    | settleOk result now =>
      show (if m.inFlight > 0 then _ else _ : Model).uploads =
        (if m.inFlight > 0 then _ else _ : Model).uploads
      by_cases hf : m.inFlight > 0
      · rw [if_pos hf, if_pos hf]
        rfl
      · rw [if_neg hf, if_neg hf]
    | settleErr msg =>
      show (if m.inFlight > 0 then _ else _ : Model).uploads =
        (if m.inFlight > 0 then _ else _ : Model).uploads
      by_cases hf : m.inFlight > 0
      · rw [if_pos hf, if_pos hf]
        rfl
      · rw [if_neg hf, if_neg hf]
    | dragEnter =>
      show (if !m.isProcessing then _ else _ : Model).uploads =
        (if !m.isProcessing then _ else _ : Model).uploads
      by_cases hb : (!m.isProcessing) = true
      · rw [if_pos hb, if_pos hb]
      · rw [if_neg hb, if_neg hb]
    | dragExit =>
      show (if !m.isProcessing then _ else _ : Model).uploads =
        (if !m.isProcessing then _ else _ : Model).uploads
      by_cases hb : (!m.isProcessing) = true
      · rw [if_pos hb, if_pos hb]
      · rw [if_neg hb, if_neg hb]
    | delete shiftKey item => rfl
    | clearAll => rfl

/-- Witness for C8 at a concrete history: shift-deleting the cloud-backed
record removes it and issues exactly one remote delete. -/
theorem c8_remove_fire_and_forget_witness :
    (∀ u ∈ (deleteUpload true sampleCloudItem [sampleCloudItem, mkItem 1]).1,
      u.id ≠ sampleCloudItem.id) ∧
    (deleteUpload true sampleCloudItem [sampleCloudItem, mkItem 1]).2.length = 1 := by
  constructor
  · exact c8_remove_fire_and_forget.2.1 true sampleCloudItem [sampleCloudItem, mkItem 1]
  · exact (c8_remove_fire_and_forget.2.2.1 true sampleCloudItem
      [sampleCloudItem, mkItem 1]).trans (by decide)

/-- C9: the history is read from the persisted slot once, into the start
state; a missing slot or a value on which the parse fails yields the
empty history rather than failing (the loader is total), and the start
state is otherwise the normal idle state. -/
theorem c9_load_resilience :
    (∀ (parseJson : String → Option (List UploadItem)) (s : String),
      parseJson s = none → loadUploads parseJson (some s) = []) ∧
    (∀ parseJson : String → Option (List UploadItem),
      loadUploads parseJson none = []) ∧
    (∀ (parseJson : String → Option (List UploadItem)) (s : String)
        (l : List UploadItem),
      parseJson s = some l → loadUploads parseJson (some s) = l) ∧
    (∀ uploads0 : List UploadItem,
      (initModel uploads0).state = AppState.idle ∧
      (initModel uploads0).isProcessing = false ∧
      (initModel uploads0).uploads = uploads0) := by
  refine ⟨?_, ?_, ?_, ?_⟩
  · intro parseJson s h
    simp [loadUploads, h]
  · intro parseJson
    rfl
  · intro parseJson s l h
    simp [loadUploads, h]
  · intro u0
    exact ⟨rfl, rfl, rfl⟩

/-- Witness for C9: a parse that rejects every value (the exception case)
loads the empty history from a concrete malformed slot. -/
theorem c9_load_resilience_witness :
    loadUploads (fun _ => none) (some "not valid json") = [] ∧
    loadUploads (fun _ => some [mkItem 0]) (some "[ok]") = [mkItem 0] := by
  constructor
  · exact c9_load_resilience.1 (fun _ => none) "not valid json" rfl
  · exact c9_load_resilience.2.2.1 (fun _ => some [mkItem 0]) "[ok]" [mkItem 0] rfl

/-- C10: the drag-over and drag-leave listeners are gated only on the
processing flag: in every non-processing state — whatever the visible
session state, including success and error — drag-over sets the state to
drag-over and drag-leave sets it to idle (so a drag gesture can end the
success or error display early); while processing, both are no-ops. -/
theorem c10_drag_gating :
    (∀ (fmtSize : Nat → String) (m : Model), m.isProcessing = false →
      step fmtSize m .dragEnter = { m with state := .dragOver } ∧
      step fmtSize m .dragExit = { m with state := .idle }) ∧
    (∀ (fmtSize : Nat → String) (m : Model), m.isProcessing = true →
      step fmtSize m .dragEnter = m ∧ step fmtSize m .dragExit = m) := by
  constructor
  · intro fmtSize m h
    constructor <;> simp [step, h]
  · intro fmtSize m h
    constructor <;> simp [step, h]

/-- Witness for C10: at the concrete just-succeeded state (session state
`success`, guard already cleared) a drag-over moves to `drag-over`, and
at the concrete mid-processing state both notifications are no-ops. -/
theorem c10_drag_gating_witness :
    successModel.state = AppState.success ∧
    step fmt0 successModel .dragEnter = { successModel with state := .dragOver } ∧
    step fmt0 successModel .dragExit = { successModel with state := .idle } ∧
    procModel.isProcessing = true ∧
    step fmt0 procModel .dragEnter = procModel := by
  have hs := c10_drag_gating.1 fmt0 successModel (by decide)
  exact ⟨by decide, hs.1, hs.2, by decide,
    (c10_drag_gating.2 fmt0 procModel (by decide)).1⟩

end ZipDrop
